import Mathlib

/-!
# nostr-robosats-ob: order-sync pipeline

A shallow embedding of `main.go`: the configuration check (`initConfig`), the
announcement formatter and publisher (`postNewOrderToNostr`), the fetcher
(`getOrderbook`) and the sync cycle (`updateOrders`, `insertOrder`).

Calls into libraries that are not part of the repository are inputs of the
embedding: the float routines of `strconv`/`fmt` are a record `FloatLib`
(`goFloat` is their model on exact binary64 values), the
outcome of the HTTP request and of `json.Unmarshal` is a `Fetch`, the outcome
of each database call and of each `PublishEvent` call is given by `Faults`.
-/

namespace RoboSats

/-! ## Data model -/

/-- The struct `AppConfig` of `main.go`, fields in the order of the source. -/
structure AppConfig where
  TorProxyUrl : String
  TorProxyPort : String
  NostrPrivkey : String
  NostrRelays : String
  RobosatsOnionUrl : String
  RobosatsReferralUrl : String
  DbUrl : String
  DbTable : String
  DbUsername : String
  DbPassword : String
deriving DecidableEq, Repr

/-- The struct `Order` of `main.go`. `F32` is the type of the two `float32`
fields; Go `int` fields are integers (no arithmetic is done on them). The field
`Type` of the source is `Type_` here. -/
structure Order (F32 : Type) where
  Id : Int
  CreatedAt : String
  ExpiresAt : String
  Type_ : Int
  Currency : Int
  Amount : String
  HasRange : Bool
  MinAmount : String
  MaxAmount : String
  PaymentMethod : String
  IsExplicit : Bool
  Premium : F32
  Satoshis : String
  BondlessTaker : Bool
  Maker : Int
  EscrowDuration : Int
  MakerNick : String
  Price : F32
  MakerStatus : String

/-- The float routines `postNewOrderToNostr` calls: `strconv.ParseFloat(s, 64)`
(the value and whether the returned error is non-nil) and the `fmt` verbs
`%0.f` (on a `float64` and on a `float32`) and `%0.1f` (on a `float32`). -/
structure FloatLib where
  F64 : Type
  F32 : Type
  ParseFloat : String → F64 × Bool
  fmt0 : F64 → String
  fmt0_32 : F32 → String
  fmt1_32 : F32 → String

/-- The map `currencies` of `main.go`, as its list of key/value pairs in the
order of the source. -/
def currencies : List (Int × String) :=
  [(1, "USD"), (2, "EUR"), (3, "JPY"), (4, "GBP"), (5, "AUD"), (6, "CAD"),
   (7, "CHF"), (8, "CNY"), (9, "HKD"), (10, "NZD"), (11, "SEK"), (12, "KRW"),
   (13, "SGD"), (14, "NOK"), (15, "MXN"), (16, "KRW"), (17, "RUB"), (18, "ZAR"),
   (19, "TRY"), (20, "BRL"), (21, "CLP"), (22, "CZK"), (23, "DKK"), (24, "HRK"),
   (25, "HUF"), (26, "INR"), (27, "ISK"), (28, "PLN"), (29, "RON"), (30, "ARS"),
   (31, "VES"), (32, "COP"), (33, "PEN"), (34, "UYU"), (35, "PYG"), (36, "BOB"),
   (37, "IDR"), (38, "ANG"), (39, "CRC"), (40, "CUP"), (41, "DOP"), (42, "GHS"),
   (43, "GTQ"), (44, "ILS"), (45, "JMD"), (46, "KES"), (47, "KZT"), (48, "MYR"),
   (49, "NAD"), (50, "NGN"), (51, "AZN"), (52, "PAB"), (53, "PHP"), (54, "PKR"),
   (55, "QAR"), (56, "SAR"), (57, "THB"), (58, "TTD"), (59, "VND"), (60, "XOF"),
   (61, "TWD"), (62, "TZS"), (63, "XAF"), (64, "UAH"), (300, "XAU"),
   (1000, "BTC")]

/-! ## postNewOrderToNostr: the formatting step (lines 273-312) -/

/-- Lines 273-280: the label of the order type. -/
def orderType (t : Int) : String :=
  if t = 0 then "BUY" else if t = 1 then "SELL" else "UNKNOWN"

/-- Lines 282-301: the amount text. The error of `ParseFloat` is only printed;
the returned value is formatted in every case. -/
def amount (L : FloatLib) (order : Order L.F32) : String :=
  if order.HasRange then
    let minAmount := (L.ParseFloat order.MinAmount).1
    let maxAmount := (L.ParseFloat order.MaxAmount).1
    L.fmt0 minAmount ++ "-" ++ L.fmt0 maxAmount
  else
    let amt := (L.ParseFloat order.Amount).1
    L.fmt0 amt

/-- Lines 303-306: the currency text; `%d` is the decimal rendering of the
integer. -/
def currency (code : Int) : String :=
  match currencies.lookup code with
  | some c => c
  | none => "Unknown currency (" ++ toString code ++ ")"

/-- Line 308: the premium text. -/
def premium (L : FloatLib) (order : Order L.F32) : String :=
  L.fmt1_32 order.Premium ++ "%"

/-- Line 310: the price text. -/
def price (L : FloatLib) (order : Order L.F32) : String :=
  L.fmt0_32 order.Price

/-- Line 312: the content of the announcement. -/
def content (L : FloatLib) (config : AppConfig) (order : Order L.F32) : String :=
  "Type: " ++ orderType order.Type_ ++ "\nAmount: " ++ amount L order ++
  "\nCurrency: " ++ currency order.Currency ++
  "\nPayment method: " ++ order.PaymentMethod ++
  "\nPremium: " ++ premium L order ++ "\nPrice: " ++ price L order ++
  "\nLINK(TOR): " ++ config.RobosatsReferralUrl

/-! ## A model of the float routines

Binary floating point as exact values `±m·2^e`, with the rounding rules of
IEEE 754 binary64 (round to nearest, ties to even): `strconv.ParseFloat` on
the grammar of `readFloat` and `special`, and the verbs `%0.f` and `%0.1f`. -/

/-- A floating point value: finite `±m·2^e`, an infinity, or not-a-number. -/
inductive GoFloat where
  | finite (neg : Bool) (m : Nat) (e : Int)
  | inf (neg : Bool)
  | nan
deriving DecidableEq, Repr

/-- The number of binary digits of `n`; the first argument bounds the
recursion and is at least the result. -/
def bitLength : Nat → Nat → Nat
  | 0, _ => 0
  | fuel + 1, n => if n = 0 then 0 else bitLength fuel (n / 2) + 1

/-- The integer nearest to `n / d`, a tie going to the even one. -/
def roundHalfEven (n d : Nat) : Nat :=
  let q := n / d
  let r := n % d
  if 2 * r < d then q
  else if d < 2 * r then q + 1
  else if q % 2 = 0 then q else q + 1

/-- The fraction `n / (d·2^e)` as a numerator and a denominator. -/
def scaleBy (n d : Nat) (e : Int) : Nat × Nat :=
  if 0 ≤ e then (n, d * 2 ^ e.toNat) else (n * 2 ^ (-e).toNat, d)

/-- The binary64 value nearest to `±n/d` (`d` positive), and whether the
conversion overflowed: the exponent `e` is the one that puts `n/(d·2^e)` in
`[2^52, 2^53)`, not below the subnormal exponent `-1074`; an overflow gives
the infinity. -/
def roundFloat64 (neg : Bool) (n d : Nat) : GoFloat × Bool :=
  if n = 0 then (GoFloat.finite neg 0 0, false)
  else
    let e0 : Int := (bitLength n n : Int) - (bitLength d d : Int) - 53
    let s0 := scaleBy n d e0
    let e1 : Int := if 2 ^ 53 * s0.2 ≤ s0.1 then e0 + 1 else e0
    let e : Int := if e1 < -1074 then -1074 else e1
    let s := scaleBy n d e
    let m := roundHalfEven s.1 s.2
    if 971 < e ∨ (e = 971 ∧ 2 ^ 53 ≤ m) then (GoFloat.inf neg, true)
    else (GoFloat.finite neg m e, false)

/-- The function `commonPrefixLenIgnoreCase` of `strconv`: the length of the
common prefix of `s` and `pre`, an upper-case ASCII letter of `s` counting as
its lower-case one. -/
def commonPrefixLenIgnoreCase : List Char → List Char → Nat
  | c :: s, p :: pre => if c.toLower = p then commonPrefixLenIgnoreCase s pre + 1 else 0
  | _, _ => 0

/-- The infinity case of `special`: `inf` or `infinity` at the start of `s`;
a longer match that is not the whole word counts as `inf`. -/
def infinityPart (neg : Bool) (s : List Char) : Option (GoFloat × List Char) :=
  let n := commonPrefixLenIgnoreCase s "infinity".toList
  let k := if 3 < n ∧ n < 8 then 3 else n
  if k = 3 ∨ k = 8 then some (GoFloat.inf neg, s.drop k) else none

/-- The function `special` of `strconv`: the possibly signed spellings of
infinity and the spelling of not-a-number at the start of the text, with the
rest of the text. A sign falls through to the infinity case. -/
def special : List Char → Option (GoFloat × List Char)
  | [] => none
  | c :: s =>
    if c = '+' ∨ c = '-' then infinityPart (decide (c = '-')) s
    else if c = 'i' ∨ c = 'I' then infinityPart false (c :: s)
    else if c = 'n' ∨ c = 'N' then
      if commonPrefixLenIgnoreCase (c :: s) "nan".toList = 3 then some (GoFloat.nan, s.drop 2)
      else none
    else none

/-- The value of a hexadecimal letter, if the character is one. -/
def hexLetter (c : Char) : Option Nat :=
  if 'a' ≤ c ∧ c ≤ 'f' then some (c.toNat - 97 + 10)
  else if 'A' ≤ c ∧ c ≤ 'F' then some (c.toNat - 65 + 10)
  else none

/-- The state of the digit loop of `readFloat`: the digits read so far as a
number in the base, whether a digit and whether the point were seen, the
number of digits after the point, and whether an underscore was seen. -/
structure Mantissa where
  value : Nat
  sawdigits : Bool
  sawdot : Bool
  frac : Nat
  underscores : Bool
deriving DecidableEq, Repr

/-- One more digit. -/
def Mantissa.push (m : Mantissa) (base digit : Nat) : Mantissa :=
  { m with value := m.value * base + digit, sawdigits := true,
           frac := if m.sawdot then m.frac + 1 else m.frac }

/-- The digit loop of `readFloat`: underscores are skipped, the first point is
noted, digits (and hexadecimal letters after a `0x`) are accumulated; the loop
stops at a second point or at any other character. -/
def readMantissa (hex : Bool) : List Char → Mantissa → Mantissa × List Char
  | [], m => (m, [])
  | c :: cs, m =>
    if c = '_' then readMantissa hex cs { m with underscores := true }
    else if c = '.' then
      if m.sawdot then (m, c :: cs) else readMantissa hex cs { m with sawdot := true }
    else if c.isDigit then
      readMantissa hex cs (m.push (if hex then 16 else 10) (c.toNat - 48))
    else
      match hexLetter c with
      | some d => if hex then readMantissa hex cs (m.push 16 d) else (m, c :: cs)
      | none => (m, c :: cs)

/-- The digits of the exponent: underscores are skipped and the exponent stops
growing once it has reached 10000. -/
def readExpDigits : List Char → Nat → Bool → Nat × Bool × List Char
  | [], e, u => (e, u, [])
  | c :: cs, e, u =>
    if c = '_' then readExpDigits cs e true
    else if c.isDigit then
      readExpDigits cs (if e < 10000 then e * 10 + (c.toNat - 48) else e) u
    else (e, u, c :: cs)

/-- The digits of the exponent after its optional sign: a digit at least;
the signed exponent, whether an underscore was seen, and the rest. -/
def readExponentDigits (neg : Bool) (r : List Char) : Option (Int × Bool × List Char) :=
  match r with
  | [] => none
  | d :: _ =>
    if d.isDigit then
      match readExpDigits r 0 false with
      | (e, u, rest) => some (if neg then -(e : Int) else (e : Int), u, rest)
    else none

/-- The exponent after its letter: an optional sign and the digits. -/
def readExponent : List Char → Option (Int × Bool × List Char)
  | [] => none
  | c :: cs =>
    if c = '+' then readExponentDigits false cs
    else if c = '-' then readExponentDigits true cs
    else readExponentDigits false (c :: cs)

/-- What `underscoreOK` saw last: nothing yet, a digit (or the base prefix),
an underscore, or something else. -/
inductive Saw where
  | start
  | digit
  | underscore
  | other
deriving DecidableEq, Repr

/-- The loop of `underscoreOK`: an underscore must follow a digit and be
followed by one. -/
def underscoreScan (hex : Bool) : List Char → Saw → Bool
  | [], saw => decide (saw ≠ Saw.underscore)
  | c :: cs, saw =>
    if c.isDigit ∨ (hex = true ∧ (hexLetter c).isSome = true) then underscoreScan hex cs Saw.digit
    else if c = '_' then
      if saw = Saw.digit then underscoreScan hex cs Saw.underscore else false
    else if saw = Saw.underscore then false
    else underscoreScan hex cs Saw.other

/-- The text without its optional sign. -/
def dropSign : List Char → List Char
  | [] => []
  | c :: cs => if c = '-' ∨ c = '+' then cs else c :: cs

/-- The function `underscoreOK` of `strconv`: after the optional sign, a base
prefix `0b`, `0o` or `0x` counts as a digit, and the letters count as digits
after `0x` only. -/
def underscoreOK (s : List Char) : Bool :=
  match dropSign s with
  | c0 :: c1 :: r =>
    if c0 = '0' ∧ (c1 = 'b' ∨ c1 = 'B' ∨ c1 = 'o' ∨ c1 = 'O' ∨ c1 = 'x' ∨ c1 = 'X') then
      underscoreScan (decide (c1 = 'x' ∨ c1 = 'X')) r Saw.digit
    else underscoreScan false (c0 :: c1 :: r) Saw.start
  | r => underscoreScan false r Saw.start

/-- The result of `readFloat`: the sign, whether the number is hexadecimal,
the digits as a number, the exponent of 10 (of 2 for a hexadecimal number)
that the number is to be multiplied by, and the unread rest of the text. -/
structure FloatText where
  neg : Bool
  hex : Bool
  value : Nat
  exp : Int
  rest : List Char
deriving DecidableEq, Repr

/-- The base prefix test of `readFloat`: `0x` or `0X` followed by a character
at least; whether the number is hexadecimal, and the text after the prefix. -/
def hexPrefix : List Char → Bool × List Char
  | c0 :: c1 :: c2 :: r =>
    if c0 = '0' ∧ (c1 = 'x' ∨ c1 = 'X') then (true, c2 :: r) else (false, c0 :: c1 :: c2 :: r)
  | r => (false, r)

/-- The exponent part of `readFloat` on the text left by the digit loop: the
exponent letter is `e` for a decimal number and `p` for a hexadecimal one,
which must have an exponent. -/
def exponentPart (hex : Bool) : List Char → Option (Int × Bool × List Char)
  | [] => if hex then none else some (0, false, [])
  | c :: r =>
    if (hex = false ∧ (c = 'e' ∨ c = 'E')) ∨ (hex = true ∧ (c = 'p' ∨ c = 'P')) then
      readExponent r
    else if hex then none
    else some (0, false, c :: r)

/-- The part of `readFloat` after the optional sign: `s` is the whole text and
`s1` the text after the sign; `none` when the number is malformed. The digits
are kept exactly. -/
def readNumber (neg : Bool) (s s1 : List Char) : Option FloatText :=
  match hexPrefix s1 with
  | (hex, s2) =>
    match readMantissa hex s2 ⟨0, false, false, 0, false⟩ with
    | (m, s3) =>
      if m.sawdigits = false then none
      else
        match exponentPart hex s3 with
        | none => none
        | some (e, u, rest) =>
          if (m.underscores = true ∨ u = true) ∧
              underscoreOK (s.take (s.length - rest.length)) = false then none
          else some ⟨neg, hex, m.value, e - (if hex then 4 else 1) * (m.frac : Int), rest⟩

/-- The function `readFloat` of `strconv`; `none` when it reports a
malformed number. -/
def readFloat : List Char → Option FloatText
  | [] => none
  | c :: cs => readNumber (decide (c = '-')) (c :: cs) (if c = '+' ∨ c = '-' then cs else c :: cs)

/-- The binary64 value nearest to `±value·base^exp`, with the overflow flag. -/
def roundScaled (neg : Bool) (value base : Nat) (exp : Int) : GoFloat × Bool :=
  if 0 ≤ exp then roundFloat64 neg (value * base ^ exp.toNat) 1
  else roundFloat64 neg value (base ^ (-exp).toNat)

/-- The function `strconv.ParseFloat(s, 64)`: the value and whether the error
is set. A spelling of infinity or not-a-number, or a decimal or hexadecimal
number, must make up the whole text, otherwise the result is zero with a
syntax error; a number is converted to the nearest binary64, and an overflow
gives the infinity with a range error. -/
def parseFloat64 (s : String) : GoFloat × Bool :=
  match special s.toList with
  | some (v, rest) => if rest = [] then (v, false) else (GoFloat.finite false 0 0, true)
  | none =>
    match readFloat s.toList with
    | none => (GoFloat.finite false 0 0, true)
    | some t =>
      if t.rest = [] then roundScaled t.neg t.value (if t.hex then 2 else 10) t.exp
      else (GoFloat.finite false 0 0, true)

/-- The verb `%0.f`: the value rounded to an integer (ties to even), in
decimal, with `-` for a negative value. -/
def fmtFixed0 : GoFloat → String
  | GoFloat.finite neg m e =>
    (if neg then "-" else "") ++
      toString (if 0 ≤ e then m * 2 ^ e.toNat else roundHalfEven m (2 ^ (-e).toNat))
  | GoFloat.inf neg => if neg then "-Inf" else "+Inf"
  | GoFloat.nan => "NaN"

/-- The verb `%0.1f`: the value rounded to one decimal place (ties to even). -/
def fmtFixed1 : GoFloat → String
  | GoFloat.finite neg m e =>
    let r := if 0 ≤ e then 10 * m * 2 ^ e.toNat else roundHalfEven (10 * m) (2 ^ (-e).toNat)
    (if neg then "-" else "") ++ toString (r / 10) ++ "." ++ toString (r % 10)
  | GoFloat.inf neg => if neg then "-Inf" else "+Inf"
  | GoFloat.nan => "NaN"

/-- The float routines on the model `GoFloat`. -/
def goFloat : FloatLib where
  F64 := GoFloat
  F32 := GoFloat
  ParseFloat := parseFloat64
  fmt0 := fmtFixed0
  fmt0_32 := fmtFixed0
  fmt1_32 := fmtFixed1

/-! ## initConfig (lines 178-229) -/

/-- The checks of `initConfig` on the decoded configuration, in the order of
the source: `Except.error` carries the message printed before `os.Exit(1)`,
`Except.ok` is the normal return. -/
def initConfig (config : AppConfig) : Except String Unit :=
  if config.NostrRelays = "" then
    Except.error "\nNo relays found in config. You must configure at least one relay\n"
  else if config.NostrPrivkey = "" then
    Except.error "Nostr privatekey missing, can't continue\n"
  else if config.RobosatsReferralUrl = "" then
    Except.error "\nRobosats referral url is missing from config\n"
  else if config.DbUrl = "" then
    Except.error "\nDatabase url is missing from config\n"
  else if config.DbTable = "" then
    Except.error "\nDatabase table is missing from config\n"
  else if config.DbUsername = "" then
    Except.error "\nDatabase username is missing from config\n"
  else if config.DbPassword = "" then
    Except.error "\nDatabase password is missing from config\n"
  else Except.ok ()

/-! ## The sync cycle -/

/-- What the fetch of `getOrderbook` gets: `failed` when `torClient.Get`
returns an error (and the nil response that comes with it); otherwise
`body orders err`, where `orders` is what `json.Unmarshal` left in the slice
and `err` tells whether it returned an error. The slice is empty after a
syntax error; after a type mismatch inside an element `json.Unmarshal` skips
the field, goes on, and returns the error with the decoded elements in place. -/
inductive Fetch (F32 : Type) where
  | failed
  | body (orders : List (Order F32)) (err : Bool)

/-- Lines 324-342. After a failed request the error is printed and the next
statement, `defer resp.Body.Close()`, dereferences the nil response: the
function panics (`none`). A decoding error is printed and the slice is
returned as it is. -/
def getOrderbook {F32 : Type} : Fetch F32 → Option (List (Order F32))
  | Fetch.failed => none
  | Fetch.body orders _ => some orders

/-- How a cycle ends: the loop ran to its end, `os.Exit(1)` was called, or a
nil dereference panicked. -/
inductive Status where
  | completed
  | exited
  | panicked
deriving DecidableEq, Repr

/-- The failures of the database and of the relay pool during a cycle, by the
position in the batch of the order being processed: `queryErr i` when the
`SELECT` returns an error other than `sql.ErrNoRows`, `insertErr i` when the
`INSERT` returns an error, `publishNil i` when `pool.PublishEvent` returns its
error together with a nil event. -/
structure Faults where
  queryErr : Nat → Bool
  insertErr : Nat → Bool
  publishNil : Nat → Bool

/-- No failure at all. -/
def noFaults : Faults where
  queryErr := fun _ => false
  insertErr := fun _ => false
  publishNil := fun _ => false

/-- The table `orders` (one row per element, in insertion order) and the log
of the cycle: the ids passed to a successful `INSERT`, and the order id and
content of each call of `postNewOrderToNostr`. -/
structure World where
  ledger : List Int
  inserted : List Int
  posted : List (Int × String)
deriving DecidableEq, Repr

/-- The result of `db.QueryRow(...).Scan(&id)` at line 158. -/
inductive QueryResult where
  | found
  | errNoRows
  | otherErr
deriving DecidableEq, Repr

/-- Line 158: the row with `orderId = id`, if the query does not fail. -/
def queryRow (fail : Bool) (ledger : List Int) (id : Int) : QueryResult :=
  if fail then QueryResult.otherErr
  else if id ∈ ledger then QueryResult.found
  else QueryResult.errNoRows

/-- Lines 344-352: `INSERT INTO orders VALUES (?)`; `none` is the returned
error, `some` the table with the new row. -/
def insertOrder (fail : Bool) (orderId : Int) (ledger : List Int) : Option (List Int) :=
  if fail then none else some (ledger ++ [orderId])

/-- Lines 272-322: the content is built and handed to `pool.PublishEvent`,
whose error is discarded; line 321 then reads `event.ID`, which panics when
the returned event is nil. The second component is `false` on that panic. -/
def postNewOrderToNostr (L : FloatLib) (config : AppConfig) (nilEvent : Bool)
    (order : Order L.F32) (w : World) : World × Bool :=
  ({ w with posted := w.posted ++ [(order.Id, content L config order)] }, !nilEvent)

/-- Lines 156-173: the loop over the orders, from position `i` of the batch. -/
def updateLoop (L : FloatLib) (config : AppConfig) (f : Faults) :
    Nat → List (Order L.F32) → World → World × Status
  | _, [], w => (w, Status.completed)
  | i, order :: rest, w =>
    match queryRow (f.queryErr i) w.ledger order.Id with
    | QueryResult.found => updateLoop L config f (i + 1) rest w
    | QueryResult.otherErr => (w, Status.exited)
    | QueryResult.errNoRows =>
      match insertOrder (f.insertErr i) order.Id w.ledger with
      | none => (w, Status.exited)
      | some ledger =>
        let w1 : World := { w with ledger := ledger, inserted := w.inserted ++ [order.Id] }
        match postNewOrderToNostr L config (f.publishNil i) order w1 with
        | (w2, true) => updateLoop L config f (i + 1) rest w2
        | (w2, false) => (w2, Status.panicked)

/-- Lines 147-175: one cycle on the table `ledger`. -/
def updateOrders (L : FloatLib) (config : AppConfig) (f : Faults)
    (fetch : Fetch L.F32) (ledger : List Int) : World × Status :=
  match getOrderbook fetch with
  | none => ({ ledger := ledger, inserted := [], posted := [] }, Status.panicked)
  | some orders =>
    updateLoop L config f 0 orders { ledger := ledger, inserted := [], posted := [] }

/-- An order with the given id and empty or zero fields otherwise. -/
def orderWithId (id : Int) : Order GoFloat where
  Id := id
  CreatedAt := ""
  ExpiresAt := ""
  Type_ := 0
  Currency := 0
  Amount := ""
  HasRange := false
  MinAmount := ""
  MaxAmount := ""
  PaymentMethod := ""
  IsExplicit := false
  Premium := GoFloat.finite false 0 0
  Satoshis := ""
  BondlessTaker := false
  Maker := 0
  EscrowDuration := 0
  MakerNick := ""
  Price := GoFloat.finite false 0 0
  MakerStatus := ""

/-- A configuration with every setting filled in. -/
def sampleConfig : AppConfig where
  TorProxyUrl := "socks5://127.0.0.1"
  TorProxyPort := "9050"
  NostrPrivkey := "0f"
  NostrRelays := "wss://relay.example"
  RobosatsOnionUrl := "http://robosats.onion"
  RobosatsReferralUrl := "http://robosats.onion/ref/x"
  DbUrl := "127.0.0.1:3306"
  DbTable := "robosats"
  DbUsername := "user"
  DbPassword := "secret"

/-- The posted order ids of a world, in call order. -/
def World.postedIds (w : World) : List Int := w.posted.map Prod.fst

/-- The world after a new order was inserted and posted. -/
def World.record (w : World) (id : Int) (text : String) : World :=
  { ledger := w.ledger ++ [id], inserted := w.inserted ++ [id],
    posted := w.posted ++ [(id, text)] }

/-- The faults of a relay pool whose signing key is not valid: every
`PublishEvent` returns a nil event. -/
def publishAlwaysNil : Faults where
  queryErr := fun _ => false
  insertErr := fun _ => false
  publishNil := fun _ => true

/-- Faults with a failing insert at position 2 of the batch only. -/
def insertFailsAtTwo : Faults where
  queryErr := fun _ => false
  insertErr := fun i => decide (i = 2)
  publishNil := fun _ => false

/-- The character of a decimal digit. -/
def digitChar (d : Fin 10) : Char := Char.ofNat (48 + d.val)

/-- The number written by a list of decimal digits. -/
def digitsValue (ds : List (Fin 10)) : ℕ := ds.foldl (fun a d => a * 10 + d.val) 0

/-- The exponent part of a decimal number: the letter `E` when `upper` and `e`
otherwise, an optional sign (`some true` is `-`, `some false` is `+`) and the
digits of the exponent. -/
structure ExponentLit where
  upper : Bool
  sign : Option Bool
  digits : List (Fin 10)

/-- A decimal number as it is written: `-` when `neg`, the digits `ip` of the
integer part, the digits `fp` after the point (no point when there is none),
and an optional exponent part. -/
structure DecimalLit where
  neg : Bool
  ip : List (Fin 10)
  fp : List (Fin 10)
  exp : Option ExponentLit

/-- The characters of an exponent part. -/
def ExponentLit.chars (x : ExponentLit) : List Char :=
  (if x.upper then 'E' else 'e') ::
    ((match x.sign with
      | none => []
      | some true => ['-']
      | some false => ['+']) ++ x.digits.map digitChar)

/-- The exponent an exponent part denotes. -/
def ExponentLit.value (x : ExponentLit) : ℤ :=
  match x.sign with
  | some true => -(digitsValue x.digits : ℤ)
  | _ => (digitsValue x.digits : ℤ)

/-- The characters of what follows the digits of a decimal number. -/
def exponentChars : Option ExponentLit → List Char
  | none => []
  | some x => x.chars

/-- The characters of a decimal number. -/
def DecimalLit.chars (d : DecimalLit) : List Char :=
  (if d.neg then ['-'] else []) ++
    (d.ip.map digitChar ++
      ((if d.fp.isEmpty then [] else '.' :: d.fp.map digitChar) ++ exponentChars d.exp))

/-- The text of a decimal number. -/
def DecimalLit.text (d : DecimalLit) : String := String.mk d.chars

/-- The exponent an optional exponent part denotes, zero for none. -/
def exponentOf : Option ExponentLit → ℤ
  | none => 0
  | some x => x.value

/-- The exponent of a decimal number. -/
def DecimalLit.exponent (d : DecimalLit) : ℤ := exponentOf d.exp

/-- The absolute value of the number a decimal number denotes. -/
def DecimalLit.value (d : DecimalLit) : ℚ :=
  (digitsValue (d.ip ++ d.fp) : ℚ) / 10 ^ d.fp.length * 10 ^ d.exponent

/-- The elements of a list without repetition, in the order of their first
occurrence. -/
def firstOccurrences : List Int → List Int
  | [] => []
  | x :: xs => x :: (firstOccurrences xs).filter (fun y => decide (y ≠ x))

/-! ## The formatter -/

theorem lookup_of_mem (c : Int) (s : String) :
    ∀ l : List (Int × String), (l.map Prod.fst).Nodup → (c, s) ∈ l → l.lookup c = some s
  | [], _, h => by simp at h
  | (k, v) :: l, hn, h => by
    rw [List.map_cons, List.nodup_cons] at hn
    rcases List.mem_cons.mp h with h1 | h2
    · cases h1
      simp [List.lookup]
    · have hk : c ≠ k := by
        intro hck
        exact hn.1 (List.mem_map.mpr ⟨(c, s), h2, hck⟩)
      have hb : (c == k) = false := by simpa using hk
      rw [List.lookup, hb]
      exact lookup_of_mem c s l hn.2 h2

theorem lookup_of_not_mem (c : Int) :
    ∀ l : List (Int × String), (∀ s, (c, s) ∉ l) → l.lookup c = none
  | [], _ => rfl
  | (k, v) :: l, h => by
    have hk : c ≠ k := by
      rintro rfl
      exact h v (List.mem_cons_self _ _)
    have hb : (c == k) = false := by simpa using hk
    rw [List.lookup, hb]
    exact lookup_of_not_mem c l (fun s hs => h s (List.mem_cons_of_mem _ hs))

theorem currencies_keys_nodup : (currencies.map Prod.fst).Nodup := by decide

/-- C6: the currency text is the value of the table `currencies` for a code
that is one of its keys, and `Unknown currency (<code>)`, with the code in
decimal, for every other integer; code 9999 gives `Unknown currency (9999)`. -/
theorem currency_render :
    (∀ (c : Int) (s : String), (c, s) ∈ currencies → currency c = s) ∧
    (∀ c : Int, (∀ s, (c, s) ∉ currencies) →
      currency c = "Unknown currency (" ++ toString c ++ ")") ∧
    currency 9999 = "Unknown currency (9999)" ∧
    currency (-7) = "Unknown currency (-7)" ∧
    currency 1000 = "BTC" := by
  refine ⟨?_, ?_, by decide, by decide, by decide⟩
  · intro c s h
    simp only [currency, lookup_of_mem c s currencies currencies_keys_nodup h]
  · intro c h
    simp only [currency, lookup_of_not_mem c currencies h]

/-- C7: the label of the order type is `BUY` for 0, `SELL` for 1 and `UNKNOWN`
for every other integer, negative ones included. -/
theorem orderType_label :
    orderType 0 = "BUY" ∧ orderType 1 = "SELL" ∧
    (∀ t : Int, t ≠ 0 → t ≠ 1 → orderType t = "UNKNOWN") ∧
    orderType 7 = "UNKNOWN" ∧ orderType (-1) = "UNKNOWN" ∧
    (∀ (L : FloatLib) (config : AppConfig) (order : Order L.F32),
      ∃ rest, content L config order = "Type: " ++ orderType order.Type_ ++ rest) := by
  refine ⟨by decide, by decide, ?_, by decide, by decide, ?_⟩
  · intro t h0 h1
    simp [orderType, h0, h1]
  · intro L config order
    exact ⟨"\nAmount: " ++ amount L order ++ "\nCurrency: " ++ currency order.Currency ++
      "\nPayment method: " ++ order.PaymentMethod ++ "\nPremium: " ++ premium L order ++
      "\nPrice: " ++ price L order ++ "\nLINK(TOR): " ++ config.RobosatsReferralUrl,
      by simp only [content, String.append_assoc]⟩

/-- The selection of the fields, for any float routines: with `HasRange` the
amount text is the `%0.f` rendering of the parsed `MinAmount`, a `-`, and the
`%0.f` rendering of the parsed `MaxAmount`, and `Amount` is not read;
otherwise it is the `%0.f` rendering of the parsed `Amount`, and `MinAmount`
and `MaxAmount` are not read. -/
theorem amount_selection :
    (∀ (L : FloatLib) (order : Order L.F32), order.HasRange = true →
      amount L order =
        L.fmt0 (L.ParseFloat order.MinAmount).1 ++ "-" ++
          L.fmt0 (L.ParseFloat order.MaxAmount).1) ∧
    (∀ (L : FloatLib) (order : Order L.F32), order.HasRange = false →
      amount L order = L.fmt0 (L.ParseFloat order.Amount).1) ∧
    (∀ a : String, amount goFloat
      { orderWithId 1 with HasRange := true, MinAmount := "100.4", MaxAmount := "250.6",
                           Amount := a } = "100-251") ∧
    (∀ lo hi : String, amount goFloat
      { orderWithId 1 with HasRange := false, Amount := "75.5", MinAmount := lo,
                           MaxAmount := hi } = "76") := by
  refine ⟨?_, ?_, ?_, ?_⟩
  · intro L order h
    simp [amount, h]
  · intro L order h
    simp [amount, h]
  · intro a
    rfl
  · intro lo hi
    rfl

/-- C8: the content is the fixed text with the type, amount, currency, payment
method, premium, price and referral link in this order, for every order and
configuration; two configurations with the same referral URL give the same
content; an amount text that does not parse is rendered from the zero that
`ParseFloat` returns. -/
theorem content_template :
    (∀ (L : FloatLib) (config : AppConfig) (order : Order L.F32),
      content L config order =
        "Type: " ++ orderType order.Type_ ++ "\nAmount: " ++ amount L order ++
        "\nCurrency: " ++ currency order.Currency ++
        "\nPayment method: " ++ order.PaymentMethod ++
        "\nPremium: " ++ L.fmt1_32 order.Premium ++ "%" ++
        "\nPrice: " ++ L.fmt0_32 order.Price ++
        "\nLINK(TOR): " ++ config.RobosatsReferralUrl) ∧
    (∀ (L : FloatLib) (c1 c2 : AppConfig) (order : Order L.F32),
      c1.RobosatsReferralUrl = c2.RobosatsReferralUrl →
      content L c1 order = content L c2 order) ∧
    content goFloat { sampleConfig with RobosatsOnionUrl := "http://other.onion" }
      { orderWithId 9 with Type_ := 1, Currency := 2, Amount := "n/a",
                           PaymentMethod := "Revolut",
                           Premium := GoFloat.finite false 7 (-1),
                           Price := GoFloat.finite false 40001 (-1) } =
      "Type: SELL\nAmount: 0\nCurrency: EUR\nPayment method: Revolut\nPremium: 3.5%\nPrice: 20000\nLINK(TOR): http://robosats.onion/ref/x" := by
  refine ⟨?_, ?_, by decide⟩
  · intro L config order
    simp only [content, premium, price, String.append_assoc]
  · intro L c1 c2 order h
    simp only [content, h]

/-! ## The configuration check -/

theorem initConfig_ok_iff (config : AppConfig) :
    initConfig config = Except.ok () ↔
      config.NostrRelays ≠ "" ∧ config.NostrPrivkey ≠ "" ∧
      config.RobosatsReferralUrl ≠ "" ∧ config.DbUrl ≠ "" ∧ config.DbTable ≠ "" ∧
      config.DbUsername ≠ "" ∧ config.DbPassword ≠ "" := by
  unfold initConfig
  split_ifs <;> simp_all

/-- C9: a configuration whose proxy host, proxy port and remote service base
URL are empty, every other setting being filled in, passes `initConfig`. -/
theorem initConfig_accepts_empty_proxy_and_base_url :
    initConfig { sampleConfig with TorProxyUrl := "", TorProxyPort := "",
                                   RobosatsOnionUrl := "" } = Except.ok () ∧
    initConfig { sampleConfig with RobosatsOnionUrl := "" } = Except.ok () ∧
    initConfig { sampleConfig with TorProxyPort := "" } = Except.ok () ∧
    initConfig { sampleConfig with TorProxyUrl := "" } = Except.ok () := by
  exact ⟨rfl, rfl, rfl, rfl⟩

/-! ## The sync cycle: invariants of the loop -/

theorem updateLoop_nil (L : FloatLib) (config : AppConfig) (f : Faults) (i : Nat) (w : World) :
    updateLoop L config f i [] w = (w, Status.completed) := by
  simp [updateLoop]

theorem updateLoop_cons (L : FloatLib) (config : AppConfig) (f : Faults) (i : Nat)
    (o : Order L.F32) (rest : List (Order L.F32)) (w : World) :
    updateLoop L config f i (o :: rest) w =
      if f.queryErr i = true then (w, Status.exited)
      else if o.Id ∈ w.ledger then updateLoop L config f (i + 1) rest w
      else if f.insertErr i = true then (w, Status.exited)
      else if f.publishNil i = true then
        (w.record o.Id (content L config o), Status.panicked)
      else updateLoop L config f (i + 1) rest (w.record o.Id (content L config o)) := by
  rw [updateLoop]
  cases hq : f.queryErr i <;> cases hi : f.insertErr i <;> cases hp : f.publishNil i <;>
    by_cases hm : o.Id ∈ w.ledger <;>
    simp [queryRow, insertOrder, postNewOrderToNostr, World.record, hm]

theorem updateLoop_trace (L : FloatLib) (config : AppConfig) (f : Faults) :
    ∀ (os : List (Order L.F32)) (i : Nat) (w : World),
      ∃ ins : List Int,
        (updateLoop L config f i os w).1.ledger = w.ledger ++ ins ∧
        (updateLoop L config f i os w).1.inserted = w.inserted ++ ins ∧
        (updateLoop L config f i os w).1.postedIds = w.postedIds ++ ins ∧
        ins.Nodup ∧ (∀ x ∈ ins, x ∉ w.ledger ∧ x ∈ os.map (fun o => o.Id))
  | [], i, w => ⟨[], by simp [updateLoop_nil]⟩
  | o :: rest, i, w => by
    rw [updateLoop_cons]
    split_ifs with hq hm hi hp
    · exact ⟨[], by simp⟩
    · obtain ⟨ins, h1, h2, h3, h4, h5⟩ := updateLoop_trace L config f rest (i + 1) w
      exact ⟨ins, h1, h2, h3, h4, fun x hx =>
        ⟨(h5 x hx).1, by simpa using Or.inr (by simpa using (h5 x hx).2)⟩⟩
    · exact ⟨[], by simp⟩
    · exact ⟨[o.Id], by simp [World.record, World.postedIds, hm]⟩
    · obtain ⟨ins, h1, h2, h3, h4, h5⟩ :=
        updateLoop_trace L config f rest (i + 1) (w.record o.Id (content L config o))
      refine ⟨o.Id :: ins, ?_, ?_, ?_, ?_, ?_⟩
      · simpa [World.record] using h1
      · simpa [World.record] using h2
      · simpa [World.record, World.postedIds] using h3
      · refine List.nodup_cons.mpr ⟨fun hin => ?_, h4⟩
        exact (h5 _ hin).1 (by simp [World.record])
      · intro x hx
        rcases List.mem_cons.mp hx with rfl | hx
        · exact ⟨hm, by simp⟩
        · have := h5 x hx
          refine ⟨fun hxl => this.1 (by simp [World.record, hxl]), ?_⟩
          simpa using Or.inr (by simpa using this.2)

theorem updateLoop_ledger_mono (L : FloatLib) (config : AppConfig) (f : Faults)
    (os : List (Order L.F32)) (i : Nat) (w : World) (x : Int) (hx : x ∈ w.ledger) :
    x ∈ (updateLoop L config f i os w).1.ledger := by
  obtain ⟨ins, h1, -⟩ := updateLoop_trace L config f os i w
  rw [h1]
  exact List.mem_append_left _ hx

theorem updateLoop_completed_mem (L : FloatLib) (config : AppConfig) (f : Faults) :
    ∀ (os : List (Order L.F32)) (i : Nat) (w : World),
      (updateLoop L config f i os w).2 = Status.completed →
      ∀ o ∈ os, o.Id ∈ (updateLoop L config f i os w).1.ledger
  | [], _, _ => by simp
  | o :: rest, i, w => by
    rw [updateLoop_cons]
    split_ifs with hq hm hi hp
    · simp
    · intro hc o' ho'
      rcases List.mem_cons.mp ho' with rfl | h
      · exact updateLoop_ledger_mono L config f rest (i + 1) w _ hm
      · exact updateLoop_completed_mem L config f rest (i + 1) w hc o' h
    · simp
    · simp
    · intro hc o' ho'
      rcases List.mem_cons.mp ho' with rfl | h
      · exact updateLoop_ledger_mono L config f rest (i + 1) _ _ (by simp [World.record])
      · exact updateLoop_completed_mem L config f rest (i + 1) _ hc o' h

theorem updateLoop_append (L : FloatLib) (config : AppConfig) (f : Faults) :
    ∀ (pre rest : List (Order L.F32)) (i : Nat) (w : World),
      updateLoop L config f i (pre ++ rest) w =
        if (updateLoop L config f i pre w).2 = Status.completed then
          updateLoop L config f (i + pre.length) rest (updateLoop L config f i pre w).1
        else updateLoop L config f i pre w
  | [], rest, i, w => by simp [updateLoop_nil]
  | o :: pre, rest, i, w => by
    have e : i + (o :: pre).length = i + 1 + pre.length := by simp; omega
    rw [List.cons_append, updateLoop_cons, updateLoop_cons, e]
    split_ifs with hq hm hc hi hp hc <;>
      first
      | rfl
      | simp_all [updateLoop_append L config f pre rest (i + 1)]

theorem firstOccurrences_filter (p : Int → Bool) :
    ∀ ys : List Int, (firstOccurrences ys).filter p = firstOccurrences (ys.filter p)
  | [] => rfl
  | y :: t => by
    by_cases hp : p y = true
    · simp only [firstOccurrences, List.filter_cons, hp, if_true]
      rw [← firstOccurrences_filter p t, List.filter_filter, List.filter_filter]
      congr 1
      apply List.filter_congr
      intro x _
      exact Bool.and_comm _ _
    · simp only [firstOccurrences, List.filter_cons, hp, if_false, Bool.false_eq_true]
      rw [← firstOccurrences_filter p t, List.filter_filter]
      apply List.filter_congr
      intro x _
      by_cases hx : x = y
      · subst hx
        simp [hp]
      · simp [hx]

theorem updateLoop_completed_new (L : FloatLib) (config : AppConfig) (f : Faults) :
    ∀ (os : List (Order L.F32)) (i : Nat) (w : World),
      (updateLoop L config f i os w).2 = Status.completed →
      (updateLoop L config f i os w).1.ledger = w.ledger ++
          firstOccurrences ((os.map (fun o => o.Id)).filter (fun x => decide (x ∉ w.ledger))) ∧
      (updateLoop L config f i os w).1.inserted = w.inserted ++
          firstOccurrences ((os.map (fun o => o.Id)).filter (fun x => decide (x ∉ w.ledger))) ∧
      (updateLoop L config f i os w).1.postedIds = w.postedIds ++
          firstOccurrences ((os.map (fun o => o.Id)).filter (fun x => decide (x ∉ w.ledger)))
  | [], _, _ => by simp [updateLoop_nil, firstOccurrences]
  | o :: rest, i, w => by
    rw [updateLoop_cons]
    split_ifs with hq hm hi hp
    · simp
    · intro hc
      have := updateLoop_completed_new L config f rest (i + 1) w hc
      simpa [List.filter_cons, hm] using this
    · simp
    · simp
    · intro hc
      have := updateLoop_completed_new L config f rest (i + 1) _ hc
      have e : (firstOccurrences (List.filter (fun x => decide (x ∉ w.ledger))
            (List.map (fun o => o.Id) rest))).filter (fun y => decide (y ≠ o.Id)) =
          firstOccurrences (List.filter
            (fun x => decide (x ∉ (w.record o.Id (content L config o)).ledger))
            (List.map (fun o => o.Id) rest)) := by
        rw [firstOccurrences_filter, List.filter_filter]
        congr 1
        apply List.filter_congr
        intro x _
        simp [World.record, not_or, and_comm]
      simp only [List.map_cons, List.filter_cons, hm, not_false_eq_true, decide_True, if_true,
        firstOccurrences, e]
      simpa [World.record, World.postedIds] using this

theorem updateOrders_body (L : FloatLib) (config : AppConfig) (f : Faults)
    (os : List (Order L.F32)) (err : Bool) (ledger : List Int) :
    updateOrders L config f (Fetch.body os err) ledger =
      updateLoop L config f 0 os { ledger := ledger, inserted := [], posted := [] } := rfl

theorem updateOrders_trace (L : FloatLib) (config : AppConfig) (f : Faults)
    (fetch : Fetch L.F32) (ledger : List Int) :
    ∃ ins : List Int,
      (updateOrders L config f fetch ledger).1.ledger = ledger ++ ins ∧
      (updateOrders L config f fetch ledger).1.inserted = ins ∧
      (updateOrders L config f fetch ledger).1.postedIds = ins ∧
      ins.Nodup ∧ ∀ x ∈ ins, x ∉ ledger := by
  cases fetch with
  | failed => exact ⟨[], by simp [updateOrders, getOrderbook, World.postedIds]⟩
  | body os err =>
    obtain ⟨ins, h1, h2, h3, h4, h5⟩ :=
      updateLoop_trace L config f os 0 { ledger := ledger, inserted := [], posted := [] }
    rw [updateOrders_body]
    exact ⟨ins, h1, by simpa using h2, by simpa [World.postedIds] using h3, h4,
      fun x hx => (h5 x hx).1⟩

/-- C4: an id inserted during a cycle was absent from the ledger before it and
is in the ledger after it, whatever the failures of the cycle (a failed
publish included), and no later cycle on that ledger inserts or posts it. -/
theorem inserted_stays_in_ledger (L : FloatLib) (config : AppConfig) (f : Faults)
    (fetch : Fetch L.F32) (ledger : List Int) (id : Int)
    (h : id ∈ (updateOrders L config f fetch ledger).1.inserted) :
    id ∉ ledger ∧ id ∈ (updateOrders L config f fetch ledger).1.ledger ∧
    id ∈ (updateOrders L config f fetch ledger).1.postedIds ∧
    ∀ (f2 : Faults) (fetch2 : Fetch L.F32),
      id ∉ (updateOrders L config f2 fetch2
              (updateOrders L config f fetch ledger).1.ledger).1.postedIds ∧
      id ∉ (updateOrders L config f2 fetch2
              (updateOrders L config f fetch ledger).1.ledger).1.inserted := by
  obtain ⟨ins, h1, h2, h3, -, h5⟩ := updateOrders_trace L config f fetch ledger
  rw [h2] at h
  have hl : id ∈ (updateOrders L config f fetch ledger).1.ledger := by
    rw [h1]
    exact List.mem_append_right _ h
  refine ⟨h5 id h, hl, by rw [h3]; exact h, ?_⟩
  intro f2 fetch2
  obtain ⟨ins2, -, k2, k3, -, k5⟩ :=
    updateOrders_trace L config f2 fetch2 (updateOrders L config f fetch ledger).1.ledger
  rw [k2, k3]
  exact ⟨fun hin => k5 id hin hl, fun hin => k5 id hin hl⟩

theorem inserted_stays_in_ledger_witness :
    (4 : Int) ∈ (updateOrders goFloat sampleConfig publishAlwaysNil
        (Fetch.body ([2, 3, 4, 5].map orderWithId) false) [1, 2, 3]).1.inserted ∧
    ((4 : Int) ∉ [1, 2, 3] ∧
     (4 : Int) ∈ (updateOrders goFloat sampleConfig publishAlwaysNil
        (Fetch.body ([2, 3, 4, 5].map orderWithId) false) [1, 2, 3]).1.ledger ∧
     (4 : Int) ∈ (updateOrders goFloat sampleConfig publishAlwaysNil
        (Fetch.body ([2, 3, 4, 5].map orderWithId) false) [1, 2, 3]).1.postedIds ∧
     ∀ (f2 : Faults) (fetch2 : Fetch goFloat.F32),
      (4 : Int) ∉ (updateOrders goFloat sampleConfig f2 fetch2
              (updateOrders goFloat sampleConfig publishAlwaysNil
                (Fetch.body ([2, 3, 4, 5].map orderWithId) false) [1, 2, 3]).1.ledger).1.postedIds ∧
      (4 : Int) ∉ (updateOrders goFloat sampleConfig f2 fetch2
              (updateOrders goFloat sampleConfig publishAlwaysNil
                (Fetch.body ([2, 3, 4, 5].map orderWithId) false) [1, 2, 3]).1.ledger).1.inserted) :=
  ⟨by decide, inserted_stays_in_ledger goFloat sampleConfig publishAlwaysNil
      (Fetch.body ([2, 3, 4, 5].map orderWithId) false) [1, 2, 3] 4 (by decide)⟩

/-- C10: when the cycle reaches an order (the orders before it were processed
to the end) and the ledger query for it fails, or it is absent from the ledger
and its insert fails, the cycle ends there with `os.Exit(1)`: the ledger, the
inserts and the posts are exactly those made for the orders before it, and
nothing is done for that order or for the later ones. -/
theorem ledger_error_stops_cycle (L : FloatLib) (config : AppConfig) (f : Faults)
    (pre post : List (Order L.F32)) (o : Order L.F32) (err : Bool) (ledger : List Int)
    (hpre : (updateOrders L config f (Fetch.body pre err) ledger).2 = Status.completed)
    (hfail : f.queryErr pre.length = true ∨
      (o.Id ∉ (updateOrders L config f (Fetch.body pre err) ledger).1.ledger ∧
        f.insertErr pre.length = true)) :
    updateOrders L config f (Fetch.body (pre ++ o :: post) err) ledger =
      ((updateOrders L config f (Fetch.body pre err) ledger).1, Status.exited) := by
  rw [updateOrders_body] at hpre hfail
  rw [updateOrders_body, updateOrders_body, updateLoop_append, if_pos hpre, updateLoop_cons,
    Nat.zero_add]
  rcases hfail with hq | ⟨hm, hi⟩
  · rw [if_pos hq]
  · by_cases hq : f.queryErr pre.length = true
    · rw [if_pos hq]
    · rw [if_neg hq, if_neg hm, if_pos hi]

theorem ledger_error_stops_cycle_witness :
    ((updateOrders goFloat sampleConfig insertFailsAtTwo
        (Fetch.body ([2, 4].map orderWithId) false) [1, 2, 3]).2 = Status.completed ∧
     (insertFailsAtTwo.queryErr ([2, 4].map orderWithId).length = true ∨
      ((orderWithId 5).Id ∉ (updateOrders goFloat sampleConfig insertFailsAtTwo
          (Fetch.body ([2, 4].map orderWithId) false) [1, 2, 3]).1.ledger ∧
        insertFailsAtTwo.insertErr ([2, 4].map orderWithId).length = true))) ∧
    updateOrders goFloat sampleConfig insertFailsAtTwo
        (Fetch.body ([2, 4].map orderWithId ++ orderWithId 5 :: [orderWithId 6]) false)
        [1, 2, 3] =
      ((updateOrders goFloat sampleConfig insertFailsAtTwo
          (Fetch.body ([2, 4].map orderWithId) false) [1, 2, 3]).1, Status.exited) ∧
    (updateOrders goFloat sampleConfig insertFailsAtTwo
        (Fetch.body ([2, 4].map orderWithId) false) [1, 2, 3]).1.inserted = [4] :=
  ⟨⟨by decide, Or.inr ⟨by decide, by decide⟩⟩,
   ledger_error_stops_cycle goFloat sampleConfig insertFailsAtTwo ([2, 4].map orderWithId)
     [orderWithId 6] (orderWithId 5) false [1, 2, 3] (by decide)
     (Or.inr ⟨by decide, by decide⟩),
   by decide⟩

theorem updateLoop_no_fault_completed (L : FloatLib) (config : AppConfig) (f : Faults)
    (hf : ∀ i, f.queryErr i = false ∧ f.insertErr i = false ∧ f.publishNil i = false) :
    ∀ (os : List (Order L.F32)) (i : Nat) (w : World),
      (updateLoop L config f i os w).2 = Status.completed
  | [], _, _ => by simp [updateLoop_nil]
  | o :: rest, i, w => by
    rw [updateLoop_cons]
    simp only [(hf i).1, (hf i).2.1, (hf i).2.2, Bool.false_eq_true, if_false]
    split_ifs
    · exact updateLoop_no_fault_completed L config f hf rest (i + 1) w
    · exact updateLoop_no_fault_completed L config f hf rest (i + 1) _

theorem updateOrders_completed_new_orders (L : FloatLib) (config : AppConfig) (f : Faults)
    (os : List (Order L.F32)) (err : Bool) (ledger : List Int)
    (hc : (updateOrders L config f (Fetch.body os err) ledger).2 = Status.completed) :
    (updateOrders L config f (Fetch.body os err) ledger).1.ledger = ledger ++
        firstOccurrences ((os.map (fun o => o.Id)).filter (fun x => decide (x ∉ ledger))) ∧
    (updateOrders L config f (Fetch.body os err) ledger).1.inserted =
        firstOccurrences ((os.map (fun o => o.Id)).filter (fun x => decide (x ∉ ledger))) ∧
    (updateOrders L config f (Fetch.body os err) ledger).1.postedIds =
        firstOccurrences ((os.map (fun o => o.Id)).filter (fun x => decide (x ∉ ledger))) := by
  rw [updateOrders_body] at hc ⊢
  simpa [World.postedIds] using updateLoop_completed_new L config f os 0 _ hc

theorem updateOrders_no_fault_new_orders (L : FloatLib) (config : AppConfig) (f : Faults)
    (hf : ∀ i, f.queryErr i = false ∧ f.insertErr i = false ∧ f.publishNil i = false)
    (os : List (Order L.F32)) (err : Bool) (ledger : List Int) :
    updateOrders L config f (Fetch.body os err) ledger =
      ({ ledger := ledger ++
            firstOccurrences ((os.map (fun o => o.Id)).filter (fun x => decide (x ∉ ledger))),
         inserted :=
            firstOccurrences ((os.map (fun o => o.Id)).filter (fun x => decide (x ∉ ledger))),
         posted := (updateOrders L config f (Fetch.body os err) ledger).1.posted },
       Status.completed) ∧
    (updateOrders L config f (Fetch.body os err) ledger).1.postedIds =
      firstOccurrences ((os.map (fun o => o.Id)).filter (fun x => decide (x ∉ ledger))) := by
  have hc : (updateOrders L config f (Fetch.body os err) ledger).2 = Status.completed := by
    rw [updateOrders_body]
    exact updateLoop_no_fault_completed L config f hf os 0 _
  obtain ⟨h1, h2, h3⟩ := updateOrders_completed_new_orders L config f os err ledger hc
  refine ⟨?_, h3⟩
  rw [← h1, ← h2, ← hc]

theorem updateOrders_twice_completed (L : FloatLib) (config : AppConfig) (f f2 : Faults)
    (os : List (Order L.F32)) (err : Bool) (ledger : List Int)
    (hc : (updateOrders L config f (Fetch.body os err) ledger).2 = Status.completed) :
    (updateOrders L config f2 (Fetch.body os err)
        (updateOrders L config f (Fetch.body os err) ledger).1.ledger).1.inserted = [] ∧
    (updateOrders L config f2 (Fetch.body os err)
        (updateOrders L config f (Fetch.body os err) ledger).1.ledger).1.posted = [] ∧
    ∀ o ∈ os, ledger.count o.Id ≤ 1 →
      (updateOrders L config f2 (Fetch.body os err)
        (updateOrders L config f (Fetch.body os err) ledger).1.ledger).1.ledger.count o.Id = 1 := by
  have hmem : ∀ o ∈ os, o.Id ∈ (updateOrders L config f (Fetch.body os err) ledger).1.ledger := by
    rw [updateOrders_body] at hc ⊢
    exact updateLoop_completed_mem L config f os 0 _ hc
  obtain ⟨ins, h1, -, -, h4, h5⟩ := updateOrders_trace L config f (Fetch.body os err) ledger
  obtain ⟨ins2, k1, k2, k3, -, -⟩ := updateOrders_trace L config f2 (Fetch.body os err)
    (updateOrders L config f (Fetch.body os err) ledger).1.ledger
  obtain ⟨ins3, -, j2, -, -, j5⟩ := updateLoop_trace L config f2 os 0
    { ledger := (updateOrders L config f (Fetch.body os err) ledger).1.ledger,
      inserted := [], posted := [] }
  rw [← updateOrders_body L config f2 os err, k2] at j2
  have hnil : ins2 = [] := by
    have e : ins2 = ins3 := by simpa using j2
    subst e
    apply List.eq_nil_iff_forall_not_mem.mpr
    intro x hx
    obtain ⟨hx1, hx2⟩ := j5 x hx
    obtain ⟨o, ho, rfl⟩ := List.mem_map.mp hx2
    exact hx1 (hmem o ho)
  subst hnil
  refine ⟨k2, ?_, ?_⟩
  · have : (updateOrders L config f2 (Fetch.body os err)
        (updateOrders L config f (Fetch.body os err) ledger).1.ledger).1.posted.map Prod.fst = [] :=
      k3
    simpa using this
  · intro o ho hcount
    rw [k1, List.append_nil, h1, List.count_append]
    have hin := hmem o ho
    rw [h1, List.mem_append] at hin
    rcases hin with hl | hi
    · have h0 : ins.count o.Id = 0 := List.count_eq_zero.mpr (fun hin => h5 _ hin hl)
      have h1' : 0 < ledger.count o.Id := List.count_pos_iff.mpr hl
      omega
    · have h0 : ledger.count o.Id = 0 := List.count_eq_zero.mpr (h5 _ hi)
      have h1' : ins.count o.Id = 1 := List.count_eq_one_of_mem h4 hi
      omega

/-- C1: with the ledger `{1,2,3}`, the batch `[2,3,4,5]` and no ledger error,
a `PublishEvent` that returns a nil event (its error is discarded) makes the
cycle panic after order 4: 4 is inserted and posted, 5 is neither inserted
nor posted; with no failure at all the inserts and the posts are `[4,5]`. -/
theorem publish_nil_stops_new_order_detection :
    (∀ i, publishAlwaysNil.queryErr i = false ∧ publishAlwaysNil.insertErr i = false) ∧
    updateOrders goFloat sampleConfig publishAlwaysNil
        (Fetch.body ([2, 3, 4, 5].map orderWithId) false) [1, 2, 3] =
      ({ ledger := [1, 2, 3, 4], inserted := [4],
         posted := [(4, content goFloat sampleConfig (orderWithId 4))] },
       Status.panicked) ∧
    (updateOrders goFloat sampleConfig noFaults
        (Fetch.body ([2, 3, 4, 5].map orderWithId) false) [1, 2, 3]).1.inserted = [4, 5] ∧
    (updateOrders goFloat sampleConfig noFaults
        (Fetch.body ([2, 3, 4, 5].map orderWithId) false) [1, 2, 3]).1.postedIds = [4, 5] := by
  refine ⟨fun i => ⟨rfl, rfl⟩, by decide, by decide, by decide⟩

/-- C2: with an empty ledger and the batch `[4,5]` run twice with no ledger
error, a `PublishEvent` that returns a nil event ends the first run after
order 4, and the second run then inserts and posts order 5. -/
theorem second_run_inserts_after_publish_panic :
    updateOrders goFloat sampleConfig publishAlwaysNil
        (Fetch.body ([4, 5].map orderWithId) false) [] =
      ({ ledger := [4], inserted := [4],
         posted := [(4, content goFloat sampleConfig (orderWithId 4))] },
       Status.panicked) ∧
    updateOrders goFloat sampleConfig publishAlwaysNil
        (Fetch.body ([4, 5].map orderWithId) false) [4] =
      ({ ledger := [4, 5], inserted := [5],
         posted := [(5, content goFloat sampleConfig (orderWithId 5))] },
       Status.panicked) := by
  refine ⟨by decide, by decide⟩

/-- C3: after a failed request `getOrderbook` does not return (the nil response
is dereferenced) and the cycle panics with the ledger as it was; after a
decoding error that left order 7 in the slice, the cycle inserts and posts
order 7. -/
theorem fetch_error_not_isolated :
    getOrderbook (Fetch.failed : Fetch GoFloat) = none ∧
    updateOrders goFloat sampleConfig noFaults Fetch.failed [1, 2, 3] =
      ({ ledger := [1, 2, 3], inserted := [], posted := [] }, Status.panicked) ∧
    getOrderbook (Fetch.body [orderWithId 7] true) = some [orderWithId 7] ∧
    updateOrders goFloat sampleConfig noFaults (Fetch.body [orderWithId 7] true) [1, 2, 3] =
      ({ ledger := [1, 2, 3, 7], inserted := [7],
         posted := [(7, content goFloat sampleConfig (orderWithId 7))] },
       Status.completed) := by
  refine ⟨rfl, by decide, rfl, by decide⟩

theorem updateOrders_fetch_failed (L : FloatLib) (config : AppConfig) (f : Faults)
    (ledger : List Int) :
    updateOrders L config f Fetch.failed ledger =
      ({ ledger := ledger, inserted := [], posted := [] }, Status.panicked) := rfl

/-! ## The float model: rounding, parsing and the amount text -/

theorem parseFloat64_examples :
    fmtFixed0 (parseFloat64 "1_000").1 = "1000" ∧ (parseFloat64 "1_000").2 = false ∧
    parseFloat64 "Infinity" = (GoFloat.inf false, false) ∧
    parseFloat64 "-inf" = (GoFloat.inf true, false) ∧
    parseFloat64 "NaN" = (GoFloat.nan, false) ∧
    fmtFixed0 (parseFloat64 "0x1p4").1 = "16" ∧ (parseFloat64 "0x1p4").2 = false ∧
    fmtFixed0 (parseFloat64 "1e3").1 = "1000" ∧
    parseFloat64 "12abc" = (GoFloat.finite false 0 0, true) ∧
    parseFloat64 "1__0" = (GoFloat.finite false 0 0, true) ∧
    parseFloat64 "" = (GoFloat.finite false 0 0, true) ∧
    fmtFixed0 (parseFloat64 "-3.7").1 = "-4" ∧
    fmtFixed0 (parseFloat64 "0.5").1 = "0" ∧
    fmtFixed0 (parseFloat64 "1.5").1 = "2" ∧
    fmtFixed0 (parseFloat64 "2.5").1 = "2" ∧
    fmtFixed0 (parseFloat64 "74.5").1 = "74" ∧
    fmtFixed0 (GoFloat.inf false) = "+Inf" ∧ fmtFixed0 GoFloat.nan = "NaN" := by
  refine ⟨by rfl, by rfl, by rfl, by rfl, by rfl, by rfl, by rfl, by rfl, by rfl, by rfl,
    by rfl, by rfl, by rfl, by rfl, by rfl, by rfl, by rfl, by rfl⟩

end RoboSats
